import Mathlib

/-
Verification of the GlycoNutri glycemic time-series analytics engine.

Shallow embedding conventions:
* a CGM reading is a pair of a timestamp and a glucose value; timestamps are
  rational numbers measured in MINUTES (the Python code stores datetimes and
  converts differences with total_seconds(); a difference of t minutes is
  60 * t seconds);
* glucose values (floats in the source) are embedded as rationals;
* pandas Series.std() is the sample standard deviation (ddof = 1), embedded
  as Real.sqrt of the rational sample variance (for windows of fewer than 2
  samples pandas yields NaN; the embedded variance returns the junk value 0
  there via rational division by zero, and no claim depends on that case);
* pandas Series.mean() of an empty series is NaN and `NaN > 0` is False in
  Python; rational 0/0 = 0 makes the embedded mean 0 there, so positivity
  guards take the same branch as the source;
* DataFrame filtering keeps row order, and sort_values on an already
  time-sorted frame is the identity, so window extraction is List.filter.
-/

/-- One CGM reading: timestamp in minutes, glucose in mg/dL. -/
structure Reading where
  t : ℚ
  g : ℚ
deriving DecidableEq, Repr

/-- Mean of a list of rationals (pandas Series.mean; 0 on empty input where
pandas gives NaN, see the header comment). -/
def listMean (l : List ℚ) : ℚ := l.sum / (l.length : ℚ)

/-- Sample variance with ddof = 1 (the square of pandas Series.std). -/
def sampleVar (l : List ℚ) : ℚ :=
  ((l.map (fun x => (x - listMean l) ^ 2)).sum) / ((l.length - 1 : ℕ) : ℚ)

/-- pandas Series.std(): sample standard deviation. -/
noncomputable def sampleStd (l : List ℚ) : ℝ := Real.sqrt (sampleVar l)

/-- Consecutive differences g - prev of a glucose column, in order
(Series.diff dropping the leading NaN). -/
def diffs (l : List ℚ) : List ℚ := List.zipWith (fun p x => x - p) l l.tail

/-- cgm.calculate_tir: percentage of samples with low <= glucose <= high,
0 when the frame is empty. -/
def calculate_tir (gs : List ℚ) (low high : ℚ) : ℚ :=
  let inRange : ℕ := gs.countP (fun x => decide (low ≤ x) && decide (x ≤ high))
  let total : ℕ := gs.length
  if 0 < total then ((inRange : ℚ) / (total : ℚ)) * 100 else 0

/-- cgm.calculate_gv: (std / mean) * 100 when mean > 0, else 0.  On an empty
frame pandas mean is NaN, the guard `mean > 0` is False, and the source
returns the number 0. -/
noncomputable def calculate_gv (gs : List ℚ) : ℝ :=
  if 0 < listMean gs then sampleStd gs / (listMean gs : ℝ) * 100 else 0

section TirProofs

/-- C6: calculate_tir is invariant under any permutation of the input rows,
returns 0 on an empty series, and returns 100 on a nonempty series all of
whose samples lie within [low, high]. -/
theorem C6_tir_perm_empty_full (low high : ℚ) :
    (∀ gs gs' : List ℚ, gs.Perm gs' →
        calculate_tir gs low high = calculate_tir gs' low high) ∧
    calculate_tir [] low high = 0 ∧
    (∀ gs : List ℚ, gs ≠ [] → (∀ x ∈ gs, low ≤ x ∧ x ≤ high) →
        calculate_tir gs low high = 100) := by
  refine ⟨?_, ?_, ?_⟩
  · intro gs gs' hperm
    unfold calculate_tir
    rw [hperm.countP_eq, hperm.length_eq]
  · simp [calculate_tir]
  · intro gs hne hall
    unfold calculate_tir
    have hlen : 0 < gs.length := List.length_pos.mpr hne
    have hcnt : gs.countP (fun x => decide (low ≤ x) && decide (x ≤ high))
        = gs.length := by
      apply List.countP_eq_length.mpr
      intro x hx
      have := hall x hx
      simp [this.1, this.2]
    rw [hcnt]
    have hq : (gs.length : ℚ) ≠ 0 := by positivity
    simp [hlen, div_self hq]

/-- Witness for C6 at concrete inputs. -/
theorem C6_tir_witness :
    calculate_tir [80, 90] 70 140 = calculate_tir [90, 80] 70 140 ∧
    calculate_tir [] 70 140 = 0 ∧
    calculate_tir [80] 70 140 = 100 := by
  obtain ⟨h1, h2, h3⟩ := C6_tir_perm_empty_full 70 140
  refine ⟨h1 [80, 90] [90, 80] (by decide), h2, h3 [80] (by decide) (by decide)⟩

end TirProofs

section GvProofs

/-- C7 counterexample: on an empty window calculate_gv returns the number 0
(it has no absence value at all), refuting the claim that it returns None. -/
theorem C7_gv_empty_counterexample : calculate_gv [] = 0 := by
  simp [calculate_gv, listMean]

/-- C7 (amended): calculate_gv substitutes the number 0 for absence whenever
the positivity guard on the mean fails, in particular on an empty window. -/
theorem C7_gv_zero_of_mean_not_pos (gs : List ℚ) (h : ¬ 0 < listMean gs) :
    calculate_gv gs = 0 := by
  simp [calculate_gv, h]

/-- Witness for C7 at the empty window. -/
theorem C7_gv_witness : calculate_gv [] = 0 ∧ ¬ (0 : ℚ) < listMean [] :=
  ⟨C7_gv_zero_of_mean_not_pos [] (by simp [listMean]), by simp [listMean]⟩

end GvProofs

/-! PostMealAnalysis (postmeal.py).  The meal timestamp is the anchor; window
extraction filters the frame, which preserves chronological order. -/

/-- PostMealAnalysis.find_post_meal_window: readings with
meal_time <= t <= meal_time + hours. -/
def find_post_meal_window (s : List Reading) (mealT : ℚ) (hours : ℚ) :
    List Reading :=
  s.filter (fun r => decide (mealT ≤ r.t) && decide (r.t ≤ mealT + 60 * hours))

/-- PostMealAnalysis.find_pre_meal_window: readings with
meal_time - minutes <= t < meal_time. -/
def find_pre_meal_window (s : List Reading) (mealT : ℚ) (minutes : ℚ) :
    List Reading :=
  s.filter (fun r => decide (mealT - minutes ≤ r.t) && decide (r.t < mealT))

/-- PostMealAnalysis.calculate_baseline: mean glucose of the pre-meal window,
None when that window is empty. -/
def calculate_baseline (s : List Reading) (mealT : ℚ) (minutes : ℚ) :
    Option ℚ :=
  let w := find_pre_meal_window s mealT minutes
  if w = [] then none else some (listMean (w.map Reading.g))

/-- Baseline as the spec words it: mean glucose over the half-open interval
from anchor - lookback (inclusive) to anchor (exclusive), absent when no
sample falls in that interval.  Written from the spec for comparison with
calculate_baseline. -/
def specBaseline (s : List Reading) (anchor lookback : ℚ) : Option ℚ :=
  let w := s.filter (fun r => decide (anchor - lookback ≤ r.t ∧ r.t < anchor))
  if w = [] then none
  else some (((w.map Reading.g).sum) / ((w.length : ℚ)))

section BaselineProofs

/-- C5: calculate_baseline is the mean glucose over the half-open window
[anchor - lookback, anchor), None when the window is empty; with lookback
30 min it returns None when no sample precedes the anchor, and 100 for a
single sample of value 100 at anchor - 5 min. -/
theorem C5_baseline_spec :
    (∀ (s : List Reading) (anchor lookback : ℚ),
        calculate_baseline s anchor lookback = specBaseline s anchor lookback) ∧
    calculate_baseline [⟨0, 100⟩, ⟨5, 110⟩] 0 30 = none ∧
    calculate_baseline [⟨-5, 100⟩] 0 30 = some 100 := by
  refine ⟨?_,
    by norm_num [calculate_baseline, find_pre_meal_window, listMean],
    by norm_num [calculate_baseline, find_pre_meal_window, listMean]⟩
  intro s anchor lookback
  unfold calculate_baseline specBaseline find_pre_meal_window
  have hf : ∀ r : Reading,
      (decide (anchor - lookback ≤ r.t) && decide (r.t < anchor))
        = decide (anchor - lookback ≤ r.t ∧ r.t < anchor) := by
    intro r
    by_cases h1 : anchor - lookback ≤ r.t <;> by_cases h2 : r.t < anchor <;>
      simp [h1, h2]
  simp only [hf, listMean, List.length_map]

end BaselineProofs

/-- Composite trapezoidal rule of the post-meal AUC loop: points are
(timestamp in minutes, value); each step contributes
(value_i + value_im1) * time_diff_hours / 2, where the source divides the
time difference in seconds by 3600, i.e. minutes by 60. -/
def trapSum : List (ℚ × ℚ) → ℚ
  | p :: q :: rest => (q.2 + p.2) * ((q.1 - p.1) / 60) / 2 + trapSum (q :: rest)
  | _ => 0

/-- Body of PostMealAnalysis.calculate_incremental_auc with the baseline made
an explicit argument: clamp each sample to max(0, glucose - baseline), then
integrate by the trapezoidal rule; None for fewer than 2 samples. -/
def incremental_auc (w : List Reading) (b : ℚ) : Option ℚ :=
  if w.length < 2 then none
  else some (trapSum (w.map (fun r => (r.t, max 0 (r.g - b)))))

/-- PostMealAnalysis.calculate_incremental_auc: incremental AUC of the
post-meal window against the pre-meal baseline; None when the window has
fewer than 2 samples or the baseline is absent. -/
def calculate_incremental_auc (s : List Reading) (mealT : ℚ) (hours : ℚ) :
    Option ℚ :=
  let w := find_post_meal_window s mealT hours
  if w.length < 2 then none
  else
    match calculate_baseline s mealT 30 with
    | none => none
    | some b => incremental_auc w b

section IaucProofs

lemma trapSum_nonneg :
    ∀ pts : List (ℚ × ℚ), (∀ p ∈ pts, 0 ≤ p.2) →
      pts.Chain' (fun p q => p.1 ≤ q.1) → 0 ≤ trapSum pts
  | [], _, _ => by simp [trapSum]
  | [p], _, _ => by simp [trapSum]
  | p :: q :: rest, hval, hsort => by
    have hp : 0 ≤ p.2 := hval p (by simp)
    have hq : 0 ≤ q.2 := hval q (by simp)
    have ht : p.1 ≤ q.1 := (List.chain'_cons.mp hsort).1
    have hstep : 0 ≤ (q.2 + p.2) * ((q.1 - p.1) / 60) / 2 := by
      apply div_nonneg _ (by norm_num)
      apply mul_nonneg (by linarith)
      apply div_nonneg (by linarith) (by norm_num)
    have hrest : 0 ≤ trapSum (q :: rest) :=
      trapSum_nonneg (q :: rest) (fun x hx => hval x (by simp at hx ⊢; tauto))
        (List.chain'_cons.mp hsort).2
    show 0 ≤ (q.2 + p.2) * ((q.1 - p.1) / 60) / 2 + trapSum (q :: rest)
    linarith

lemma trapSum_eq_zero :
    ∀ pts : List (ℚ × ℚ), (∀ p ∈ pts, p.2 = 0) → trapSum pts = 0
  | [], _ => by simp [trapSum]
  | [p], _ => by simp [trapSum]
  | p :: q :: rest, hval => by
    have hp : p.2 = 0 := hval p (by simp)
    have hq : q.2 = 0 := hval q (by simp)
    have hrest : trapSum (q :: rest) = 0 :=
      trapSum_eq_zero (q :: rest) (fun x hx => hval x (by simp at hx ⊢; tauto))
    show (q.2 + p.2) * ((q.1 - p.1) / 60) / 2 + trapSum (q :: rest) = 0
    rw [hp, hq, hrest]
    ring

/-- C4: on a window of at least 2 samples ordered by timestamp,
incremental_auc returns a value that is nonnegative for every baseline, and
returns exactly 0 when every sample's glucose is at most the baseline. -/
theorem C4_iauc_nonneg (w : List Reading) (b : ℚ)
    (h2 : 2 ≤ w.length) (hs : w.Chain' (fun r r' => r.t ≤ r'.t)) :
    (∃ v, incremental_auc w b = some v ∧ 0 ≤ v) ∧
    ((∀ r ∈ w, r.g ≤ b) → incremental_auc w b = some 0) := by
  have hnotlt : ¬ w.length < 2 := by omega
  constructor
  · refine ⟨trapSum (w.map (fun r => (r.t, max 0 (r.g - b)))), ?_, ?_⟩
    · simp [incremental_auc, hnotlt]
    · apply trapSum_nonneg
      · intro p hp
        obtain ⟨r, _, rfl⟩ := List.mem_map.mp hp
        exact le_max_left 0 _
      · rw [List.chain'_map]
        exact hs
  · intro hall
    have hzero : trapSum (w.map (fun r => (r.t, max 0 (r.g - b)))) = 0 := by
      apply trapSum_eq_zero
      intro p hp
      obtain ⟨r, hr, rfl⟩ := List.mem_map.mp hp
      have : r.g - b ≤ 0 := by have := hall r hr; linarith
      simpa [max_eq_left] using this
    simp [incremental_auc, hnotlt, hzero]

/-- Witness for C4 at a concrete window fully below the baseline. -/
theorem C4_iauc_witness :
    incremental_auc [⟨0, 100⟩, ⟨60, 90⟩] 120 = some 0 := by
  have h := C4_iauc_nonneg [⟨0, 100⟩, ⟨60, 90⟩] 120 (by simp)
    (by simp [List.chain'_cons])
  exact h.2
    (by intro r hr; simp at hr; rcases hr with h1 | h1 <;> norm_num [h1])

end IaucProofs

/-! MAGE (postmeal.calculate_mage).  The source extracts the post-meal
window, takes its std (pandas sample std), walks consecutive differences and
collects |diff| whenever |diff| >= std * sd_threshold; the result is the mean
of the collected list, None when it is empty (and None for an empty window).
The glucose column of the window is the list argument here. -/

open Classical in
/-- Excursion list of calculate_mage: |diff| for every consecutive difference
with |diff| >= std * sd_threshold. -/
noncomputable def pmExcursions (gs : List ℚ) (m : ℝ) : List ℚ :=
  ((diffs gs).filter (fun d : ℚ => decide (sampleStd gs * m ≤ |(d : ℝ)|))).map
    (fun d : ℚ => |d|)

/-- PostMealAnalysis.calculate_mage on the glucose column of the window:
None on an empty window, else mean of the qualifying |diff| list, None when
no excursion qualifies. -/
noncomputable def calculate_mage (gs : List ℚ) (m : ℝ) : Option ℚ :=
  if gs = [] then none
  else if pmExcursions gs m = [] then none
  else some (listMean (pmExcursions gs m))

/-- PostMealAnalysis.calculate_mage including the window extraction. -/
noncomputable def calculate_mage_postmeal (s : List Reading)
    (mealT hours : ℚ) (m : ℝ) : Option ℚ :=
  calculate_mage ((find_post_meal_window s mealT hours).map Reading.g) m

section MageProofs

lemma diffs_cons₂ (a b : ℚ) (t : List ℚ) :
    diffs (a :: b :: t) = (b - a) :: diffs (b :: t) := rfl

lemma diffs_replicate (c : ℚ) :
    ∀ n : ℕ, diffs (List.replicate n c) = List.replicate (n - 1) 0
  | 0 => by simp [diffs]
  | 1 => by simp [diffs]
  | (n + 2) => by
    have ih := diffs_replicate c (n + 1)
    rw [List.replicate_succ]
    rw [show List.replicate (n + 1) c = c :: List.replicate n c from
      List.replicate_succ c n] at ih ⊢
    rw [diffs_cons₂, ih]
    simp [List.replicate_succ]

lemma listMean_replicate (c : ℚ) (n : ℕ) (hn : n ≠ 0) :
    listMean (List.replicate n c) = c := by
  have hq : (n : ℚ) ≠ 0 := by exact_mod_cast hn
  unfold listMean
  rw [List.sum_replicate, List.length_replicate, nsmul_eq_mul,
    mul_div_cancel_left₀ c hq]

lemma sampleVar_replicate (c : ℚ) (n : ℕ) :
    sampleVar (List.replicate n c) = 0 := by
  cases n with
  | zero => simp [sampleVar, listMean]
  | succ m =>
    simp [sampleVar, listMean_replicate c (m + 1) (Nat.succ_ne_zero m)]

lemma sampleStd_replicate (c : ℚ) (n : ℕ) :
    sampleStd (List.replicate n c) = 0 := by
  rw [sampleStd, sampleVar_replicate]
  simp

lemma pmExcursions_replicate (c : ℚ) (n : ℕ) :
    pmExcursions (List.replicate n c) 1 = List.replicate (n - 1) 0 := by
  unfold pmExcursions
  rw [diffs_replicate, sampleStd_replicate]
  have hfilter :
      (List.replicate (n - 1) (0 : ℚ)).filter
        (fun d : ℚ => decide ((0 : ℝ) * 1 ≤ |(d : ℝ)|))
      = List.replicate (n - 1) 0 := by
    apply List.filter_eq_self.mpr
    intro d _
    simp [abs_nonneg]
  rw [hfilter]
  simp

/-- C1 counterexample: on the constant two-sample window [100, 100] the MAGE
computation returns the number 0.0 (the zero difference satisfies
|diff| >= std = 0), not None as the claim states. -/
theorem C1_mage_constant_counterexample : calculate_mage [100, 100] 1 = some 0 := by
  have h : ([100, 100] : List ℚ) = List.replicate 2 100 := by rfl
  rw [h]
  unfold calculate_mage
  rw [pmExcursions_replicate]
  simp [listMean]

/-- C1 (amended): on a constant window MAGE is 0.0 whenever the window has at
least 2 samples (every zero difference qualifies against the std = 0
threshold), and None exactly when the window has fewer than 2 samples. -/
theorem C1_mage_constant (c : ℚ) (n : ℕ) :
    calculate_mage (List.replicate n c) 1 = if n < 2 then none else some 0 := by
  unfold calculate_mage
  rw [pmExcursions_replicate]
  match n with
  | 0 => simp
  | 1 => simp
  | (k + 2) =>
    have hne : List.replicate (k + 2) c ≠ [] := by simp
    have hkne : (k + 2) - 1 ≠ 0 := by omega
    have hexcne : List.replicate ((k + 2) - 1) (0 : ℚ) ≠ [] := by
      rw [show (k + 2) - 1 = k + 1 from by omega, List.replicate_succ]
      simp
    rw [if_neg hne, if_neg hexcne, listMean_replicate 0 _ hkne]
    simp

end MageProofs

/-! BiomarkerAnalysis.extract_features (circadian.py), MAGE part: the std is
pandas sample std rounded with Python round(x, 1), each consecutive |diff| is
collected whenever |diff| >= that rounded std, and the feature is the mean of
the collected list rounded to 1 decimal, or the NUMBER 0 when the list is
empty. -/

open Classical in
/-- Python round to the nearest integer: round-half-to-even; away from exact
halves it agrees with rounding to the nearest integer. -/
noncomputable def pyroundR (x : ℝ) : ℤ :=
  if Int.fract x = 1 / 2 then (if Even ⌊x⌋ then ⌊x⌋ else ⌊x⌋ + 1)
  else round x

/-- Python round(x, 1): one decimal digit. -/
noncomputable def round1R (x : ℝ) : ℝ := (pyroundR (x * 10) : ℝ) / 10

/-- extract_features std feature: sample std rounded to 1 decimal; it is the
threshold of the biomarker MAGE loop. -/
noncomputable def bioStd (gs : List ℚ) : ℝ := round1R (sampleStd gs)

open Classical in
/-- Excursion list of the extract_features MAGE loop. -/
noncomputable def bioExcursions (gs : List ℚ) : List ℚ :=
  ((diffs gs).filter (fun d : ℚ => decide (bioStd gs ≤ |(d : ℝ)|))).map
    (fun d : ℚ => |d|)

/-- MAGE feature of BiomarkerAnalysis.extract_features: rounded mean of the
qualifying |diff| list, and the number 0 when no difference qualifies. -/
noncomputable def extract_features_mage (gs : List ℚ) : ℝ :=
  if bioExcursions gs = [] then 0
  else round1R ((listMean (bioExcursions gs) : ℚ) : ℝ)

section BioMageProofs

lemma round1R_zero : round1R 0 = 0 := by
  unfold round1R pyroundR
  norm_num

/-- C10 counterexample: on the window [100, 110, 120, 130] (sample std
sqrt(500/3) > 10, every consecutive difference 10) no excursion qualifies, so
postmeal calculate_mage returns None while extract_features reports the
number 0 — the two implementations do not agree. -/
theorem C10_mage_impls_disagree :
    (calculate_mage [100, 110, 120, 130] 1).map (fun q : ℚ => (q : ℝ))
      ≠ some (extract_features_mage [100, 110, 120, 130]) := by
  have hvar : sampleVar [100, 110, 120, 130] = 500 / 3 := by
    norm_num [sampleVar, listMean]
  have hstd : (10 : ℝ) < sampleStd [100, 110, 120, 130] := by
    rw [sampleStd, hvar]
    rw [show (((500 / 3 : ℚ)) : ℝ) = 500 / 3 by norm_num]
    rw [Real.lt_sqrt (by norm_num)]
    norm_num
  have hdiffs : diffs [100, 110, 120, 130] = [10, 10, 10] := by
    norm_num [diffs]
  have hexc : pmExcursions [100, 110, 120, 130] 1 = [] := by
    unfold pmExcursions
    rw [hdiffs]
    have hnil : ([10, 10, 10] : List ℚ).filter
        (fun d : ℚ =>
          decide (sampleStd [100, 110, 120, 130] * 1 ≤ |(d : ℝ)|)) = [] := by
      apply List.filter_eq_nil_iff.mpr
      intro d hd
      have hd10 : d = 10 := by
        simp at hd
        tauto
      subst hd10
      simp only [decide_eq_true_eq, mul_one]
      push_cast
      rw [show |(10 : ℝ)| = 10 by norm_num]
      exact not_le.mpr hstd
    rw [hnil]
    simp
  have hmage : calculate_mage [100, 110, 120, 130] 1 = none := by
    unfold calculate_mage
    rw [hexc]
    simp
  rw [hmage]
  simp

/-- C10 (amended): the implementations relate as follows — when no
consecutive difference qualifies under either threshold, calculate_mage is
None while extract_features reports the number 0; and when the two excursion
lists coincide and are nonempty, the extract_features value is the
calculate_mage value rounded to one decimal. -/
theorem C10_mage_relation (gs : List ℚ) (hne : gs ≠ []) :
    (pmExcursions gs 1 = [] → bioExcursions gs = [] →
        calculate_mage gs 1 = none ∧ extract_features_mage gs = 0) ∧
    (pmExcursions gs 1 = bioExcursions gs → pmExcursions gs 1 ≠ [] →
        ∃ v : ℚ, calculate_mage gs 1 = some v ∧
          extract_features_mage gs = round1R ((v : ℚ) : ℝ)) := by
  constructor
  · intro hpm hbio
    constructor
    · unfold calculate_mage
      rw [hpm]
      simp [hne]
    · unfold extract_features_mage
      rw [hbio]
      simp
  · intro heq hpmne
    refine ⟨listMean (pmExcursions gs 1), ?_, ?_⟩
    · unfold calculate_mage
      simp [hne, hpmne]
    · unfold extract_features_mage
      rw [← heq]
      simp [hpmne]

/-- Witness for C10's amended relation at the window [50, 50], where both
excursion lists are [0]. -/
theorem C10_mage_relation_witness :
    calculate_mage [50, 50] 1 = some 0 ∧ extract_features_mage [50, 50] = 0 := by
  have h5050 : ([50, 50] : List ℚ) = List.replicate 2 50 := by rfl
  have hpm : pmExcursions [50, 50] 1 = [0] := by
    rw [h5050, pmExcursions_replicate]
    rfl
  have hbioStd : bioStd [50, 50] = 0 := by
    rw [bioStd, h5050, sampleStd_replicate, round1R_zero]
  have hdiffs : diffs [50, 50] = [0] := by
    norm_num [diffs]
  have hbio : bioExcursions [50, 50] = [0] := by
    unfold bioExcursions
    rw [hdiffs, hbioStd]
    have hkeep : ([0] : List ℚ).filter
        (fun d : ℚ => decide ((0 : ℝ) ≤ |(d : ℝ)|)) = [0] := by
      apply List.filter_eq_self.mpr
      intro d _
      simp [abs_nonneg]
    rw [hkeep]
    simp
  obtain ⟨v, hv1, hv2⟩ := (C10_mage_relation [50, 50] (by simp)).2
    (by rw [hpm, hbio]) (by rw [hpm]; simp)
  have hv0 : v = 0 := by
    unfold calculate_mage at hv1
    rw [hpm] at hv1
    simp at hv1
    rw [← hv1]
    simp [listMean]
  refine ⟨by rw [hv1, hv0], by rw [hv2, hv0]; push_cast; exact round1R_zero⟩

end BioMageProofs

/-! TrendAnalysis episode segmentation (trend.py) and the post-meal rise
rate (postmeal.py). -/

/-- Python round to the nearest integer on rationals (round-half-to-even). -/
def pyroundQ (x : ℚ) : ℤ :=
  if Int.fract x = 1 / 2 then (if Even ⌊x⌋ then ⌊x⌋ else ⌊x⌋ + 1)
  else round x

/-- Python round(x, 1) on rationals. -/
def round1Q (x : ℚ) : ℚ := (pyroundQ (x * 10) : ℚ) / 10

/-- One detected hyperglycemia episode of _find_high_episodes. -/
structure Episode where
  start : ℚ
  stop : ℚ
  durationHours : ℚ
  maxGlucose : Option ℚ
deriving DecidableEq, Repr

/-- Maximum glucose among the predicate-true readings within [s, e], the
max_glucose field of a recorded episode. -/
def spanMax (high : List Reading) (s e : ℚ) : Option ℚ :=
  ((high.filter (fun r => decide (s ≤ r.t) && decide (r.t ≤ e))).map
    Reading.g).max?

/-- Scan loop of TrendAnalysis._find_high_episodes over the predicate-true
readings after the first: an episode is saved only when a gap of more than
3600 seconds is met AND the closed span lasted at least 2 hours; when the
list ends the currently open episode is dropped, exactly as in the source
(there is no close-at-end-of-series step). -/
def highEpisodesGo (high : List Reading) :
    List Reading → ℚ → ℚ → List Episode → List Episode
  | [], _, _, acc => acc
  | r :: rest, start, prev, acc =>
    if 3600 < 60 * (r.t - prev) then
      let dur := 60 * (prev - start) / 3600
      let acc' :=
        if 2 ≤ dur then
          acc ++ [⟨start, prev, round1Q dur, spanMax high start prev⟩]
        else acc
      highEpisodesGo high rest r.t r.t acc'
    else highEpisodesGo high rest start r.t acc

/-- TrendAnalysis._find_high_episodes: filter to readings with glucose > 180
(sort_values on the time-sorted frame is the identity), then run the scan
loop with start = prev = first reading's timestamp. -/
def find_high_episodes (s : List Reading) : List Episode :=
  let high := s.filter (fun r => decide (180 < r.g))
  match high with
  | [] => []
  | r :: rest => highEpisodesGo high rest r.t r.t []

section EpisodeProofs

/-- C2: on the series [(07:00,70),(07:05,65),(07:10,90),(07:15,200),
(07:20,150)] (timestamps in minutes of day) the source's high-episode
segmentation returns NO episode at all: the single trailing predicate-true
reading at 07:15 opens an episode that is never closed when the series ends,
so the claimed single 07:15-07:15 episode is not produced. -/
theorem C2_code_returns_no_episode :
    find_high_episodes
      [⟨420, 70⟩, ⟨425, 65⟩, ⟨430, 90⟩, ⟨435, 200⟩, ⟨440, 150⟩] = [] := by
  norm_num [find_high_episodes, highEpisodesGo, List.filter]

end EpisodeProofs

/-- Marker for a raised Python exception in the embedded code. -/
inductive PyError where
  | typeError
deriving DecidableEq, Repr

/-- Scan loop of PostMealAnalysis.rate_of_rise with a present baseline b:
at the first reading whose glucose exceeds b, return
(glucose - b) / elapsed_minutes when the elapsed time is positive, otherwise
keep scanning; None when no reading exceeds b. -/
def rorScan (mealT b : ℚ) : List Reading → Option ℚ
  | [] => none
  | r :: rest =>
    if b < r.g then
      if 0 < r.t - mealT then some ((r.g - b) / (r.t - mealT))
      else rorScan mealT b rest
    else rorScan mealT b rest

/-- PostMealAnalysis.rate_of_rise: None for a post-meal window of fewer than
2 samples; otherwise the source compares each glucose against the baseline
WITHOUT checking it for None first, so when the pre-meal window is empty the
first loop iteration evaluates glucose > None and Python raises TypeError —
embedded as the error branch. -/
def rate_of_rise (s : List Reading) (mealT : ℚ) :
    Except PyError (Option ℚ) :=
  let w := find_post_meal_window s mealT 2
  if w.length < 2 then .ok none
  else
    match calculate_baseline s mealT 30 with
    | none => .error .typeError
    | some b => .ok (rorScan mealT b w)

section RorProofs

/-- C3: with no sample before the anchor (baseline None) and two post-anchor
samples, rate_of_rise raises TypeError instead of returning None — the code
crashes where the claim requires absence propagation. -/
theorem C3_rate_of_rise_raises :
    rate_of_rise [⟨5, 100⟩, ⟨10, 120⟩] 0 = .error .typeError := by
  norm_num [rate_of_rise, find_post_meal_window, calculate_baseline,
    find_pre_meal_window, List.filter]

end RorProofs

/-- PostMealAnalysis.calculate_peak: maximum glucose of the 2h post-meal
window, None when the window is empty. -/
def calculate_peak (s : List Reading) (mealT : ℚ) : Option ℚ :=
  match find_post_meal_window s mealT 2 with
  | [] => none
  | r :: rest => some (rest.foldl (fun m x => max m x.g) r.g)

/-- PostMealAnalysis.calculate_peak_time: timestamp of the FIRST maximal
glucose of the 2h post-meal window (pandas idxmax keeps the first
occurrence), None when the window is empty. -/
def calculate_peak_time (s : List Reading) (mealT : ℚ) : Option ℚ :=
  match find_post_meal_window s mealT 2 with
  | [] => none
  | r :: rest =>
    some ((rest.foldl (fun best x => if best.g < x.g then x else best) r).t)

/-- PostMealAnalysis.half_life_estimate: for a 2h post-meal window of at
least 4 samples with a peak and a baseline, scan the samples strictly after
the peak time for the first one at or below (peak + baseline) / 2 and return
twice the elapsed minutes from the peak; None when no such sample exists. -/
def half_life_estimate (s : List Reading) (mealT : ℚ) : Option ℚ :=
  let w := find_post_meal_window s mealT 2
  if w.length < 4 then none
  else
    match calculate_peak_time s mealT with
    | none => none
    | some pt =>
      match calculate_baseline s mealT 30 with
      | none => none
      | some b =>
        match calculate_peak s mealT with
        | none => none
        | some pk =>
          let half := (pk + b) / 2
          let afterPeak := w.filter (fun r => decide (pt < r.t))
          match afterPeak.find? (fun r => decide (r.g ≤ half)) with
          | some r => some (2 * (r.t - pt))
          | none => none

section HalfLifeProofs

lemma find?_first_of_prefix_false {α : Type} (p : α → Bool) :
    ∀ (l₁ : List α) (r : α) (l₂ : List α),
      (∀ x ∈ l₁, p x = false) → p r = true →
      (l₁ ++ r :: l₂).find? p = some r
  | [], r, l₂, _, hr => by simp [List.find?_cons, hr]
  | a :: l₁, r, l₂, hl, hr => by
    have ha : p a = false := hl a (by simp)
    simp only [List.cons_append, List.find?_cons, ha]
    exact find?_first_of_prefix_false p l₁ r l₂
      (fun x hx => hl x (by simp [hx])) hr

/-- C8: when the 2h post-meal window has at least 4 samples and peak time pt,
baseline b and peak pk are present, half_life_estimate is None when every
post-peak sample stays strictly above (pk + b) / 2, and equals twice the
elapsed minutes from the peak to the FIRST post-peak sample at or below
(pk + b) / 2 when one exists. -/
theorem C8_half_life_first_crossing (s : List Reading) (mealT pt b pk : ℚ)
    (h4 : ¬ (find_post_meal_window s mealT 2).length < 4)
    (hpt : calculate_peak_time s mealT = some pt)
    (hb : calculate_baseline s mealT 30 = some b)
    (hpk : calculate_peak s mealT = some pk) :
    ((∀ r ∈ (find_post_meal_window s mealT 2).filter
        (fun r => decide (pt < r.t)), (pk + b) / 2 < r.g) →
      half_life_estimate s mealT = none) ∧
    (∀ (l₁ l₂ : List Reading) (r : Reading),
      (find_post_meal_window s mealT 2).filter (fun r => decide (pt < r.t))
          = l₁ ++ r :: l₂ →
      (∀ x ∈ l₁, (pk + b) / 2 < x.g) → r.g ≤ (pk + b) / 2 →
      half_life_estimate s mealT = some (2 * (r.t - pt))) := by
  constructor
  · intro hall
    unfold half_life_estimate
    rw [if_neg h4, hpt, hb, hpk]
    have hnone : ((find_post_meal_window s mealT 2).filter
        (fun r => decide (pt < r.t))).find?
          (fun r => decide (r.g ≤ (pk + b) / 2)) = none := by
      rw [List.find?_eq_none]
      intro x hx
      simp only [decide_eq_true_eq]
      exact not_le.mpr (hall x hx)
    dsimp only
    rw [hnone]
  · intro l₁ l₂ r heq hl₁ hr
    unfold half_life_estimate
    rw [if_neg h4, hpt, hb, hpk]
    dsimp only
    rw [heq]
    have hfind : (l₁ ++ r :: l₂).find?
        (fun x => decide (x.g ≤ (pk + b) / 2)) = some r := by
      apply find?_first_of_prefix_false
      · intro x hx
        simp only [decide_eq_false_iff_not, not_le]
        exact hl₁ x hx
      · simp only [decide_eq_true_eq]
        exact hr
    rw [hfind]

/-- Witness for C8: the spec scenario — baseline 90 (one pre-meal sample),
peak 180 at t = 30 min, first post-peak sample (t = 60, 135) at the half
value 135 — gives half-life 60 minutes. -/
theorem C8_half_life_witness :
    half_life_estimate
      [⟨-5, 90⟩, ⟨0, 100⟩, ⟨15, 150⟩, ⟨30, 180⟩, ⟨60, 135⟩] 0 = some 60 := by
  have h := C8_half_life_first_crossing
    [⟨-5, 90⟩, ⟨0, 100⟩, ⟨15, 150⟩, ⟨30, 180⟩, ⟨60, 135⟩] 0 30 90 180
    (by norm_num [find_post_meal_window, List.filter])
    (by norm_num [calculate_peak_time, find_post_meal_window, List.filter])
    (by norm_num [calculate_baseline, find_pre_meal_window, List.filter,
      listMean])
    (by norm_num [calculate_peak, find_post_meal_window, List.filter])
  have h2 := h.2 [] [] ⟨60, 135⟩
    (by norm_num [find_post_meal_window, List.filter])
    (by intro x hx; simp at hx)
    (by norm_num)
  rw [h2]
  norm_num

end HalfLifeProofs

/-- Three-way interpretation tag of IllnessAnalysis.compare_recent_days. -/
inductive Interp where
  | up
  | down
  | stable
deriving DecidableEq, Repr

/-- IllnessAnalysis.compare_recent_days with the wall-clock reading made an
explicit argument `now` (the source calls datetime.now()): recent window =
last `days` days before now, previous window = the `days` days before that;
None (an error dict in the source) when either window is empty, else the two
rounded means, the rounded change, and the interpretation tier.  Timestamps
are minutes, so `days` days = 1440 * days minutes. -/
def compare_recent_days (s : List Reading) (days : ℚ) (now : ℚ) :
    Option (ℚ × ℚ × ℚ × Interp) :=
  let recent := s.filter (fun r => decide (now - 1440 * days ≤ r.t))
  let previous := s.filter (fun r =>
    decide (now - 2880 * days ≤ r.t) && decide (r.t < now - 1440 * days))
  if recent = [] ∨ previous = [] then none
  else
    let rm := listMean (recent.map Reading.g)
    let pm := listMean (previous.map Reading.g)
    let ch := rm - pm
    some (round1Q rm, round1Q pm, round1Q ch,
      if 20 < ch then .up else if ch < -20 then .down else .stable)

section ClockProofs

/-- C9 counterexample: the same series and parameter give different
compare_recent_days results at two wall-clock instants, so the analysis is
not a pure function of its explicit inputs alone. -/
theorem C9_clock_dependence_counterexample :
    compare_recent_days [⟨0, 100⟩, ⟨-15000, 50⟩] 7 0
      ≠ compare_recent_days [⟨0, 100⟩, ⟨-15000, 50⟩] 7 30000 := by
  have hR : compare_recent_days [⟨0, 100⟩, ⟨-15000, 50⟩] 7 30000 = none := by
    norm_num [compare_recent_days, List.filter]
  have hL : compare_recent_days [⟨0, 100⟩, ⟨-15000, 50⟩] 7 0 ≠ none := by
    norm_num [compare_recent_days, List.filter]
    simp
  rw [hR]
  exact hL

/-- C9 (amended): compare_recent_days is a deterministic function of the
series, the parameter, and the wall-clock reading, and depends on the clock
only through how samples fall into the recent/previous windows: two clock
readings classifying every sample identically give equal results. -/
theorem C9_clock_window_invariance (s : List Reading) (days now1 now2 : ℚ)
    (h : ∀ r ∈ s,
      (now1 - 1440 * days ≤ r.t ↔ now2 - 1440 * days ≤ r.t) ∧
      (now1 - 2880 * days ≤ r.t ↔ now2 - 2880 * days ≤ r.t)) :
    compare_recent_days s days now1 = compare_recent_days s days now2 := by
  unfold compare_recent_days
  have h1 : s.filter (fun r => decide (now1 - 1440 * days ≤ r.t))
      = s.filter (fun r => decide (now2 - 1440 * days ≤ r.t)) := by
    apply List.filter_congr
    intro r hr
    exact decide_eq_decide.mpr (h r hr).1
  have h2 : s.filter (fun r =>
        decide (now1 - 2880 * days ≤ r.t) && decide (r.t < now1 - 1440 * days))
      = s.filter (fun r =>
        decide (now2 - 2880 * days ≤ r.t) &&
          decide (r.t < now2 - 1440 * days)) := by
    apply List.filter_congr
    intro r hr
    have hlt : r.t < now1 - 1440 * days ↔ r.t < now2 - 1440 * days := by
      rw [← not_le, ← not_le]
      exact not_congr (h r hr).1
    rw [decide_eq_decide.mpr (h r hr).2, decide_eq_decide.mpr hlt]
  rw [h1, h2]

/-- Witness for C9's invariance at two nearby clock readings that classify
both samples identically. -/
theorem C9_clock_window_invariance_witness :
    compare_recent_days [⟨0, 100⟩, ⟨-15000, 50⟩] 7 0
      = compare_recent_days [⟨0, 100⟩, ⟨-15000, 50⟩] 7 10 := by
  apply C9_clock_window_invariance
  intro r hr
  simp at hr
  rcases hr with h1 | h1 <;> rw [h1] <;> norm_num

end ClockProofs
